import Mathlib

/-!
Shallow embedding of src/lambda/get_and_parse_hiscores/lib/hiscores/rs_api.py.

Python strings are modelled as lists of characters. The stdlib helpers the
module relies on (str.split with a one-character separator, str.strip,
str.lower, str.replace with one-character arguments, int(...), substring
membership) are embedded as executable functions below. Network transport
(requests.get and its timeout) is an external effect and is not part of the
embedding: request_hiscores is modelled from the point where a response
object is available, as the classification step performed on that response.
Logger warnings are modelled as an explicit list of warning values paired
with each result, and each Python exception class becomes a constructor of
an error type carrying the data interpolated into its message.
-/

namespace RsApi

/-- A Python string, modelled as its list of characters. -/
abbrev Str := List Char

/-- Python c.isspace() for the characters str.strip removes by default
(ASCII whitespace; the exotic unicode whitespace Python also strips does
not occur in any payload considered here). -/
def pyIsSpace (c : Char) : Bool :=
  c = ' ' || c = '\t' || c = '\n' || c = '\r' || c = '\x0b' || c = '\x0c'

/-- Python str.strip(): drop whitespace from both ends. -/
def strip (s : Str) : Str :=
  ((s.dropWhile pyIsSpace).reverse.dropWhile pyIsSpace).reverse

/-- Python str.lower() on the ASCII range used by the module. -/
def pyLower (s : Str) : Str :=
  s.map Char.toLower

/-- Python str.split(sep) for a one-character separator sep: keeps empty
chunks, and the empty string splits to one empty chunk. -/
def splitChar (c : Char) : Str → List Str
  | [] => [[]]
  | a :: rest =>
    if a = c then [] :: splitChar c rest
    else
      match splitChar c rest with
      | [] => [[a]]
      | h :: t => (a :: h) :: t

/-- Python str.replace(old, new) for one-character old and new. -/
def replaceChar (old new : Char) (s : Str) : Str :=
  s.map (fun a => if a = old then new else a)

/-- Boolean test that needle is an initial segment of hay. -/
def leadsWith : Str → Str → Bool
  | [], _ => true
  | _ :: _, [] => false
  | a :: as, b :: bs => a = b && leadsWith as bs

/-- Python substring membership: needle in hay. -/
def containsSub (needle : Str) : Str → Bool
  | [] => leadsWith needle []
  | a :: t => leadsWith needle (a :: t) || containsSub needle t

/-- Value of a decimal digit character, none for a non-digit. -/
def digitVal (c : Char) : Option Nat :=
  if '0' ≤ c ∧ c ≤ '9' then some (c.toNat - '0'.toNat) else none

/-- Read a nonempty all-digit string as a natural number, none otherwise. -/
def digitsToNatAux (acc : Nat) : Str → Option Nat
  | [] => some acc
  | c :: rest =>
    match digitVal c with
    | some d => digitsToNatAux (acc * 10 + d) rest
    | none => none

/-- Read a digit string as a natural number; the empty string is rejected. -/
def digitsToNat : Str → Option Nat
  | [] => none
  | l => digitsToNatAux 0 l

/-- Python int(s) on the decimal strings the hiscores payload carries:
surrounding whitespace is stripped, one optional sign is allowed, and the
rest must be a nonempty run of decimal digits; none models the ValueError
int raises on anything else. -/
def pyInt (s : Str) : Option Int :=
  match strip s with
  | '+' :: rest => (digitsToNat rest).map Int.ofNat
  | '-' :: rest => (digitsToNat rest).map (fun n => -(Int.ofNat n))
  | other => (digitsToNat other).map Int.ofNat

/-- Errors raised by rs_api.py, one constructor per raise site, carrying the
data interpolated into the exception message. -/
inductive RsError where
  /-- InvalidSchemaError from _parse_hiscores_response_line. -/
  | invalidSchema (schema : List Str) (line : Str)
  /-- ValueError raised by int() on a non-numeric field. -/
  | intParse (field : Str)
  /-- ValueError wrapping InvalidSchemaError for a skill line. -/
  | malformedSkill
  /-- ValueError wrapping InvalidSchemaError for an activity line. -/
  | malformedActivity
  /-- HiscoresDownError for an HTML body. -/
  | hiscoresDown (text : Str)
  /-- ValueError for a non-200 status, carrying status, reason and URL. -/
  | invalidResponse (status_code : Nat) (reason : Str) (url : Str)
  /-- ValueError for a malformed query string in the echoed request URL. -/
  | invalidQuery (query : Str)
deriving DecidableEq

/-- Non-fatal logger.warning calls in rs_api.py. -/
inductive Warning where
  /-- Longer than expected response time from the Hiscores API. -/
  | slowResponse
  /-- HiScores response contains an unexpected number of lines. -/
  | unexpectedLineCount
deriving DecidableEq

/-- HISCORES_API from rs_api.py. -/
def HISCORES_API : Str :=
  "https://secure.runescape.com/m=hiscore_oldschool/index_lite.ws".toList

/-- HISCORES_IRONMAN_API from rs_api.py. -/
def HISCORES_IRONMAN_API : Str :=
  "https://secure.runescape.com/m=hiscore_oldschool_ironman/index_lite.ws".toList

/-- get_hiscores_api from rs_api.py: the ironman endpoint when the lowered
player name contains iron, the standard endpoint otherwise. -/
def get_hiscores_api (player : Str) : Str :=
  if containsSub "iron".toList (pyLower player) then HISCORES_IRONMAN_API
  else HISCORES_API

/-- Modelled from the spec: the skill-line schema. The constants module
(HISCORES_RESPONSE_SKILL_COLS) is imported by rs_api.py but is not among the
given sources; the spec fixes an ordered set of field names rank, level,
experience for one skill CSV line. -/
def HISCORES_RESPONSE_SKILL_COLS : List Str :=
  ["rank".toList, "level".toList, "experience".toList]

/-- Modelled from the spec: the activity-line schema. The constants module
(HISCORE_RESPONSE_ACTIVITY_COLS) is not among the given sources; the spec
fixes the ordered field names rank, score for one activity CSV line. -/
def HISCORE_RESPONSE_ACTIVITY_COLS : List Str :=
  ["rank".toList, "score".toList]

/-- Modelled from the spec: the fixed ordered skill-label catalog. The
constants module (HISCORES_RESPONSE_SKILLS) is not among the given sources;
the spec only requires a fixed ordered sequence of labels, so a
representative small catalog is used, and every general theorem below is
parameterized over an arbitrary catalog. -/
def HISCORES_RESPONSE_SKILLS : List Str :=
  ["Overall".toList, "Attack".toList, "Defence".toList]

/-- Modelled from the spec: the fixed ordered activity-label catalog, under
the same convention as the skill catalog. -/
def HISCORES_RESPONSE_ACTIVITIES : List Str :=
  ["League Points".toList, "Bounty Hunter".toList]

/-- Per-entity mapping from schema field names to parsed integers, as an
ordered association list (the Python dict is built by zipping the schema
with the parsed values, and schemas have distinct field names). -/
abbrev Entry := List (Str × Int)

/-- Left-to-right integer parsing of the comma-split fields of one line,
stopping at the first field int() rejects, as the lazy
map(int, split_line) consumed by dict(zip(...)) does. -/
def mapPyInt : List Str → Except RsError (List Int)
  | [] => .ok []
  | f :: rest =>
    match pyInt f with
    | none => .error (.intParse f)
    | some n =>
      match mapPyInt rest with
      | .error e => .error e
      | .ok ns => .ok (n :: ns)

/-- _parse_hiscores_response_line from rs_api.py: split the line on commas,
require the field count to equal the schema length (InvalidSchemaError
otherwise), then zip the schema with the parsed integers. -/
def _parse_hiscores_response_line (line : Str) (schema : List Str) : Except RsError Entry :=
  let split_line := splitChar ',' line
  if schema.length ≠ split_line.length then
    .error (.invalidSchema schema line)
  else
    match mapPyInt split_line with
    | .error e => .error e
    | .ok ns => .ok (schema.zip ns)

/-- _parse_skill_line from rs_api.py. -/
def _parse_skill_line (line : Str) : Except RsError Entry :=
  _parse_hiscores_response_line line HISCORES_RESPONSE_SKILL_COLS

/-- _parse_activity_line from rs_api.py. -/
def _parse_activity_line (line : Str) : Except RsError Entry :=
  _parse_hiscores_response_line line HISCORE_RESPONSE_ACTIVITY_COLS

/-- dict(zip(labels, map(parse, lines))): pairs are produced while both
lists have elements (zip truncates at the shorter list), each line is parsed
lazily when its pair is consumed, and the first parse error propagates. -/
def parseZip (p : Str → Except RsError Entry) : List Str → List Str →
    Except RsError (List (Str × Entry))
  | [], _ => .ok []
  | _ :: _, [] => .ok []
  | label :: labels, line :: lines =>
    match p line with
    | .error e => .error e
    | .ok entry =>
      match parseZip p labels lines with
      | .error e => .error e
      | .ok rest => .ok ((label, entry) :: rest)

/-- Result of sanitize_hiscores_stats: the skills and activities mappings,
as ordered association lists keyed by catalog labels. -/
structure SanitizeResult where
  skills : List (Str × Entry)
  activities : List (Str × Entry)
deriving DecidableEq

/-- Replace a low-level InvalidSchemaError by the wrapping ValueError w, as
the except InvalidSchemaError clauses of sanitize_hiscores_stats do; every
other error (the int() ValueError in particular) propagates unwrapped. -/
def wrapSchemaErr (w : RsError) : RsError → RsError
  | .invalidSchema _ _ => w
  | e => e

/-- Line 107 of rs_api.py: text.strip().split on newlines. -/
def hiscoresLines (text : Str) : List Str :=
  splitChar '\n' (strip text)

/-- Lines 116-140 of rs_api.py, parameterized over the catalogs and
schemas: take the first len(skills) lines as skill lines and the rest as
activity lines, parse each side by zipping with its catalog, and wrap any
InvalidSchemaError in the side-specific ValueError. -/
def parseStats (skillsCat actsCat skillCols actCols : List Str) (lines : List Str) :
    Except RsError SanitizeResult :=
  let skill_lines := lines.take skillsCat.length
  match parseZip (fun l => _parse_hiscores_response_line l skillCols) skillsCat skill_lines with
  | .error e => .error (wrapSchemaErr .malformedSkill e)
  | .ok skill_dict =>
    let activity_lines := lines.drop skillsCat.length
    match parseZip (fun l => _parse_hiscores_response_line l actCols) actsCat activity_lines with
    | .error e => .error (wrapSchemaErr .malformedActivity e)
    | .ok activity_dict => .ok ⟨skill_dict, activity_dict⟩

/-- Lines 109-114 of rs_api.py: the unexpected-line-count diagnostic, a
logger.warning call modelled as an emitted warning value. -/
def sanitizeWarns (skillsCat actsCat : List Str) (lines : List Str) : List Warning :=
  if lines.length ≠ skillsCat.length + actsCat.length then [Warning.unexpectedLineCount]
  else []

/-- sanitize_hiscores_stats from rs_api.py, parameterized over the catalogs
and schemas the module reads from its constants import: the emitted warnings
paired with the parse outcome. -/
def sanitize_hiscores_statsWith (skillsCat actsCat skillCols actCols : List Str)
    (text : Str) : List Warning × Except RsError SanitizeResult :=
  (sanitizeWarns skillsCat actsCat (hiscoresLines text),
   parseStats skillsCat actsCat skillCols actCols (hiscoresLines text))

/-- sanitize_hiscores_stats from rs_api.py at the catalogs modelled from
the spec. -/
def sanitize_hiscores_stats (text : Str) : List Warning × Except RsError SanitizeResult :=
  sanitize_hiscores_statsWith HISCORES_RESPONSE_SKILLS HISCORES_RESPONSE_ACTIVITIES
    HISCORES_RESPONSE_SKILL_COLS HISCORE_RESPONSE_ACTIVITY_COLS text

/-- The requests.models.Response data request_hiscores and
process_hiscores_response read: body text, status code, reason phrase, the
echoed request URL, the query component of that URL (the result of
urlparse(response.request.url).query, precomputed here because urlparse is
stdlib), and the elapsed time in microseconds (timedelta resolution). -/
structure Response where
  text : Str
  status_code : Nat
  reason : Str
  url : Str
  query : Str
  elapsedMicros : Nat
deriving DecidableEq

/-- The case-sensitive HTML marker request_hiscores looks for. -/
def HTML_MARKER : Str := "<!doctype html>".toList

/-- Lines 81-95 of request_hiscores from rs_api.py, from the point where a
response is available (the GET and its timeout are external transport):
warn when elapsed exceeds warn_secs, fail with HiscoresDownError on an HTML
body, fail with ValueError on a non-200 status, else return the response. -/
def request_hiscores_check (response : Response) (warn_secs : Nat) :
    List Warning × Except RsError Response :=
  let warnings :=
    if response.elapsedMicros > warn_secs * 1000000 then [Warning.slowResponse] else []
  if containsSub HTML_MARKER response.text then
    (warnings, .error (.hiscoresDown response.text))
  else if response.status_code ≠ 200 then
    (warnings, .error (.invalidResponse response.status_code response.reason response.url))
  else
    (warnings, .ok response)

/-- The completed record process_hiscores_response returns. -/
structure ProcessedStats where
  skills : List (Str × Entry)
  activities : List (Str × Entry)
  player : Str
  timestamp : Str
deriving DecidableEq

/-- The query key the enricher requires. -/
def PLAYER_KEY : Str := "player".toList

/-- Lines 149-152 of process_hiscores_response from rs_api.py: split the
query component of the echoed URL on equals signs, require exactly the
two chunks player and a value (ValueError otherwise), and URL-decode the
value by replacing plus signs with spaces. -/
def extract_player (query : Str) : Except RsError Str :=
  match splitChar '=' query with
  | [k, v] =>
    if k = PLAYER_KEY then .ok (replaceChar '+' ' ' v)
    else .error (.invalidQuery query)
  | _ => .error (.invalidQuery query)

/-- process_hiscores_response from rs_api.py, parameterized over the
catalogs and schemas, with the wall-clock timestamp datetime.now() formats
passed in as the value now: sanitize the body, then extract the player from
the echoed query string, then append player and timestamp. -/
def process_hiscores_responseWith (skillsCat actsCat skillCols actCols : List Str)
    (response : Response) (now : Str) : List Warning × Except RsError ProcessedStats :=
  ((sanitize_hiscores_statsWith skillsCat actsCat skillCols actCols response.text).1,
   match (sanitize_hiscores_statsWith skillsCat actsCat skillCols actCols response.text).2 with
   | .error e => .error e
   | .ok result =>
     match extract_player response.query with
     | .error e => .error e
     | .ok player => .ok ⟨result.skills, result.activities, player, now⟩)

/-- process_hiscores_response from rs_api.py at the catalogs modelled from
the spec. -/
def process_hiscores_response (response : Response) (now : Str) :
    List Warning × Except RsError ProcessedStats :=
  process_hiscores_responseWith HISCORES_RESPONSE_SKILLS HISCORES_RESPONSE_ACTIVITIES
    HISCORES_RESPONSE_SKILL_COLS HISCORE_RESPONSE_ACTIVITY_COLS response now

/-- The per-entity mapping a fully numeric line of the right width parses
to: the schema zipped with the parsed value of each comma-split field. -/
def entryOf (schema : List Str) (line : Str) : Entry :=
  schema.zip ((splitChar ',' line).map (fun f => (pyInt f).getD 0))

instance {ε α : Type} [DecidableEq ε] [DecidableEq α] : DecidableEq (Except ε α) := by
  intro a b
  cases a <;> cases b
  case error.error e₁ e₂ =>
    exact if h : e₁ = e₂ then .isTrue (by rw [h]) else .isFalse (by intro hc; cases hc; exact h rfl)
  case error.ok e x => exact .isFalse (by intro hc; cases hc)
  case ok.error x e => exact .isFalse (by intro hc; cases hc)
  case ok.ok x y =>
    exact if h : x = y then .isTrue (by rw [h]) else .isFalse (by intro hc; cases hc; exact h rfl)

/-- A line of text is a well-formed CSV row for a schema when its comma
split has exactly the schema's width and every field is an integer. -/
def GoodLine (schema : List Str) (line : Str) : Prop :=
  (splitChar ',' line).length = schema.length ∧
    ∀ f ∈ splitChar ',' line, (pyInt f).isSome = true

instance (schema : List Str) (line : Str) : Decidable (GoodLine schema line) := by
  unfold GoodLine; infer_instance

/-- A well-formed five-line payload for the modelled catalogs. -/
def GOOD_PAYLOAD : Str := "1,2,3\n4,5,6\n7,8,9\n10,11\n12,13".toList

/-- The parse of GOOD_PAYLOAD under the modelled catalogs. -/
def goodStats : SanitizeResult :=
  ⟨[("Overall".toList,
      [("rank".toList, (1 : Int)), ("level".toList, 2), ("experience".toList, 3)]),
    ("Attack".toList,
      [("rank".toList, 4), ("level".toList, 5), ("experience".toList, 6)]),
    ("Defence".toList,
      [("rank".toList, 7), ("level".toList, 8), ("experience".toList, 9)])],
   [("League Points".toList, [("rank".toList, 10), ("score".toList, 11)]),
    ("Bounty Hunter".toList, [("rank".toList, 12), ("score".toList, 13)])]⟩

/-- A formatted timestamp value standing in for datetime.now(). -/
def nowStr : Str := "2023-01-01 00:00:00".toList

/-- A successful response echoing the query player=Zezima. -/
def respZezima : Response :=
  ⟨GOOD_PAYLOAD, 200, "OK".toList,
   (HISCORES_API ++ "?player=Zezima".toList), "player=Zezima".toList, 1000⟩

/-- An HTML maintenance-page response with a non-200 status. -/
def respHtml : Response :=
  ⟨"<!doctype html> maintenance".toList, 404, "Not Found".toList,
   (HISCORES_API ++ "?player=Zezima".toList), "player=Zezima".toList, 1000⟩

/-- A plain-text response with a non-200 status. -/
def respBad : Response :=
  ⟨GOOD_PAYLOAD, 503, "Service Unavailable".toList,
   (HISCORES_API ++ "?player=Zezima".toList), "player=Zezima".toList, 1000⟩

/-- A successful but slow response: 20 seconds elapsed. -/
def respSlow : Response :=
  ⟨GOOD_PAYLOAD, 200, "OK".toList,
   (HISCORES_API ++ "?player=Zezima".toList), "player=Zezima".toList, 20000000⟩

theorem leadsWith_iff (n : Str) : ∀ h : Str, leadsWith n h = true ↔ ∃ r, h = n ++ r := by
  induction n with
  | nil => intro h; simp [leadsWith]
  | cons a as ih =>
    intro h
    cases h with
    | nil => simp [leadsWith]
    | cons b bs =>
      simp only [leadsWith, Bool.and_eq_true, decide_eq_true_eq, ih, List.cons_append,
        List.cons.injEq]
      constructor
      · rintro ⟨hab, r, hr⟩
        exact ⟨r, hab.symm, hr⟩
      · rintro ⟨r, hba, hr⟩
        exact ⟨hba.symm, r, hr⟩

theorem containsSub_iff (n : Str) : ∀ h : Str,
    containsSub n h = true ↔ ∃ l r, h = l ++ n ++ r := by
  intro h
  induction h with
  | nil =>
    simp only [containsSub, leadsWith_iff]
    constructor
    · rintro ⟨r, hr⟩
      exact ⟨[], r, by simpa using hr⟩
    · rintro ⟨l, r, hr⟩
      obtain ⟨hln, hrnil⟩ := List.append_eq_nil.mp hr.symm
      obtain ⟨hl, hn⟩ := List.append_eq_nil.mp hln
      exact ⟨[], by simp [hn]⟩
  | cons a t ih =>
    simp only [containsSub, Bool.or_eq_true, leadsWith_iff, ih]
    constructor
    · rintro (⟨r, hr⟩ | ⟨l, r, hr⟩)
      · exact ⟨[], r, by simpa using hr⟩
      · exact ⟨a :: l, r, by simp [hr]⟩
    · rintro ⟨l, r, hr⟩
      cases l with
      | nil => exact Or.inl ⟨r, by simpa using hr⟩
      | cons x xs =>
        simp only [List.cons_append, List.cons.injEq] at hr
        exact Or.inr ⟨xs, r, hr.2⟩

theorem splitChar_ne_nil (c : Char) : ∀ l : Str, splitChar c l ≠ [] := by
  intro l
  cases l with
  | nil => simp [splitChar]
  | cons a rest =>
    by_cases hac : a = c
    · simp [splitChar, hac]
    · simp only [splitChar, if_neg hac]
      cases splitChar c rest <;> simp

theorem splitChar_append_sep (c : Char) : ∀ a b : Str,
    splitChar c (a ++ c :: b) = splitChar c a ++ splitChar c b := by
  intro a b
  induction a with
  | nil => simp [splitChar]
  | cons x xs ih =>
    by_cases hxc : x = c
    · simp [splitChar, hxc, ih]
    · obtain ⟨h1, t1, hs⟩ : ∃ h1 t1, splitChar c xs = h1 :: t1 := by
        cases hsp : splitChar c xs with
        | nil => exact absurd hsp (splitChar_ne_nil c xs)
        | cons h1 t1 => exact ⟨h1, t1, rfl⟩
      simp [splitChar, if_neg hxc, ih, hs]

theorem length_splitChar_pos (c : Char) (l : Str) : 0 < (splitChar c l).length :=
  List.length_pos.mpr (splitChar_ne_nil c l)

theorem parseZip_take (p : Str → Except RsError Entry) : ∀ (labels lines : List Str),
    parseZip p labels (lines.take labels.length) = parseZip p labels lines := by
  intro labels
  induction labels with
  | nil => intro lines; simp [parseZip]
  | cons lab labs ih =>
    intro lines
    cases lines with
    | nil => simp
    | cons x xs =>
      simp only [List.length_cons, List.take_succ_cons, parseZip, ih]

theorem parseZip_ok_eq (p : Str → Except RsError Entry) (g : Str → Entry) :
    ∀ (labels lines : List Str), labels.length = lines.length →
      (∀ l ∈ lines, p l = .ok (g l)) →
      parseZip p labels lines = .ok (labels.zip (lines.map g)) := by
  intro labels
  induction labels with
  | nil =>
    intro lines hlen _
    cases lines with
    | nil => simp [parseZip]
    | cons x xs => simp at hlen
  | cons lab labs ih =>
    intro lines hlen hall
    cases lines with
    | nil => simp at hlen
    | cons x xs =>
      have hx : p x = .ok (g x) := hall x (by simp)
      have hrest : parseZip p labs xs = .ok (labs.zip (xs.map g)) := by
        refine ih xs (by simpa using hlen) ?_
        intro l hl
        exact hall l (by simp [hl])
      simp [parseZip, hx, hrest]

theorem parseZip_err_at (p : Str → Except RsError Entry) (e : RsError) :
    ∀ (pre labels : List Str) (bad : Str) (rest : List Str),
      pre.length < labels.length →
      (∀ l ∈ pre, ∃ v, p l = .ok v) →
      p bad = .error e →
      parseZip p labels (pre ++ bad :: rest) = .error e := by
  intro pre
  induction pre with
  | nil =>
    intro labels bad rest hlen _ herr
    cases labels with
    | nil => simp at hlen
    | cons lab labs => simp [parseZip, herr]
  | cons a pr ih =>
    intro labels bad rest hlen hpre herr
    cases labels with
    | nil => simp at hlen
    | cons lab labs =>
      obtain ⟨v, hv⟩ := hpre a (by simp)
      have := ih labs bad rest (by simpa using hlen)
        (fun l hl => hpre l (by simp [hl])) herr
      simp [parseZip, hv, this]

theorem parseZip_keys (p : Str → Except RsError Entry) :
    ∀ (labels lines : List Str) (res : List (Str × Entry)),
      parseZip p labels lines = .ok res →
      res.map Prod.fst = labels.take lines.length := by
  intro labels
  induction labels with
  | nil =>
    intro lines res h
    simp only [parseZip] at h
    cases h
    simp
  | cons lab labs ih =>
    intro lines res h
    cases lines with
    | nil =>
      simp only [parseZip] at h
      cases h
      simp
    | cons x xs =>
      simp only [parseZip] at h
      cases hx : p x with
      | error e => rw [hx] at h; cases h
      | ok v =>
        rw [hx] at h
        cases hr : parseZip p labs xs with
        | error e => rw [hr] at h; cases h
        | ok r =>
          rw [hr] at h
          cases h
          simp [ih xs r hr]

theorem mapPyInt_ok : ∀ l : List Str, (∀ f ∈ l, (pyInt f).isSome = true) →
    mapPyInt l = .ok (l.map (fun f => (pyInt f).getD 0)) := by
  intro l
  induction l with
  | nil => intro _; simp [mapPyInt]
  | cons f rest ih =>
    intro hall
    obtain ⟨n, hn⟩ := Option.isSome_iff_exists.mp (hall f (by simp))
    have hrest := ih (fun x hx => hall x (by simp [hx]))
    simp [mapPyInt, hn, hrest]

theorem parseLine_ok (schema : List Str) (line : Str) (h : GoodLine schema line) :
    _parse_hiscores_response_line line schema = .ok (entryOf schema line) := by
  obtain ⟨hlen, hints⟩ := h
  simp only [_parse_hiscores_response_line, hlen.symm, ne_eq, not_true_eq_false, if_false,
    mapPyInt_ok _ hints, entryOf]

theorem parseLine_count_err (schema : List Str) (line : Str)
    (h : (splitChar ',' line).length ≠ schema.length) :
    _parse_hiscores_response_line line schema = .error (.invalidSchema schema line) := by
  simp only [_parse_hiscores_response_line, ne_eq, if_pos (Ne.symm h)]

/-- C3: a response whose body contains the case-sensitive marker
<!doctype html> makes request_hiscores fail with the
HiscoresDownError classification, whatever the status code is: the marker
check precedes the status-code check. -/
theorem html_marker_yields_hiscores_down (r : Response) (w : Nat)
    (h : containsSub HTML_MARKER r.text = true) :
    (request_hiscores_check r w).2 = .error (.hiscoresDown r.text) := by
  simp [request_hiscores_check, h]

theorem html_marker_yields_hiscores_down_witness :
    containsSub HTML_MARKER respHtml.text = true ∧
      respHtml.status_code ≠ 200 ∧
      (request_hiscores_check respHtml 10).2 = .error (.hiscoresDown respHtml.text) :=
  ⟨by decide, by decide, html_marker_yields_hiscores_down respHtml 10 (by decide)⟩

/-- C4: get_hiscores_api returns the ironman endpoint exactly when the
lowercased player identifier has iron as a substring, and the standard
endpoint exactly otherwise. -/
theorem endpoint_selector_iron_iff (p : Str) :
    (get_hiscores_api p = HISCORES_IRONMAN_API ↔
      ∃ l r, pyLower p = l ++ "iron".toList ++ r) ∧
    (get_hiscores_api p = HISCORES_API ↔
      ¬ ∃ l r, pyLower p = l ++ "iron".toList ++ r) := by
  have hne : HISCORES_IRONMAN_API ≠ HISCORES_API := by decide
  by_cases h : containsSub "iron".toList (pyLower p) = true
  · have hsub := (containsSub_iff _ _).mp h
    have hif : get_hiscores_api p = HISCORES_IRONMAN_API := by
      unfold get_hiscores_api
      rw [if_pos h]
    constructor
    · rw [hif]
      exact iff_of_true rfl hsub
    · rw [hif]
      exact iff_of_false hne (not_not_intro hsub)
  · have hsub : ¬ ∃ l r, pyLower p = l ++ "iron".toList ++ r := by
      intro hex
      exact h ((containsSub_iff _ _).mpr hex)
    have hif : get_hiscores_api p = HISCORES_API := by
      unfold get_hiscores_api
      rw [if_neg h]
    constructor
    · rw [hif]
      exact iff_of_false (Ne.symm hne) hsub
    · rw [hif]
      exact iff_of_true rfl hsub

/-- C7: input that strips to the empty string yields the single empty line,
which fails the field-count check of the first skill line and surfaces as
the wrapped malformed-skill error, for every nonempty skill catalog whose
schema has more than one field; it never succeeds as an empty result. -/
theorem empty_input_fails_malformed_skill (sc ac scc acc : List Str) (text : Str)
    (hempty : strip text = []) (hsc : sc ≠ []) (hcols : 1 < scc.length) :
    (sanitize_hiscores_statsWith sc ac scc acc text).2 = .error .malformedSkill := by
  have hlines : hiscoresLines text = [[]] := by
    simp [hiscoresLines, hempty, splitChar]
  cases sc with
  | nil => exact absurd rfl hsc
  | cons s0 srest =>
    have hbadline : _parse_hiscores_response_line [] scc = .error (.invalidSchema scc []) := by
      apply parseLine_count_err
      simp only [splitChar, List.length_cons, List.length_nil]
      omega
    simp only [sanitize_hiscores_statsWith, hlines, parseStats, List.length_cons,
      List.take_succ_cons, List.take_nil, parseZip, hbadline, wrapSchemaErr]

theorem empty_input_fails_malformed_skill_witness :
    strip "".toList = [] ∧ HISCORES_RESPONSE_SKILLS ≠ [] ∧
      1 < HISCORES_RESPONSE_SKILL_COLS.length ∧
      (sanitize_hiscores_stats "".toList).2 = .error .malformedSkill :=
  ⟨by decide, by decide, by decide,
    empty_input_fails_malformed_skill HISCORES_RESPONSE_SKILLS HISCORES_RESPONSE_ACTIVITIES
      HISCORES_RESPONSE_SKILL_COLS HISCORE_RESPONSE_ACTIVITY_COLS "".toList
      (by decide) (by decide) (by decide)⟩

/-- C8: for a marker-free response, a non-200 status fails with the
InvalidResponse classification carrying status code, reason and request
URL, and a 200 status returns the response unchanged. -/
theorem marker_free_status_classification (r : Response) (w : Nat)
    (hmarker : containsSub HTML_MARKER r.text = false) :
    (r.status_code ≠ 200 →
      (request_hiscores_check r w).2 =
        .error (.invalidResponse r.status_code r.reason r.url)) ∧
    (r.status_code = 200 → (request_hiscores_check r w).2 = .ok r) := by
  constructor
  · intro hstatus
    simp [request_hiscores_check, hmarker, hstatus]
  · intro hstatus
    simp [request_hiscores_check, hmarker, hstatus]

theorem marker_free_status_classification_witness :
    (request_hiscores_check respBad 10).2 =
        .error (.invalidResponse respBad.status_code respBad.reason respBad.url) ∧
      (request_hiscores_check respZezima 10).2 = .ok respZezima :=
  ⟨(marker_free_status_classification respBad 10 (by decide)).1 (by decide),
   (marker_free_status_classification respZezima 10 (by decide)).2 rfl⟩

/-- C9: the two diagnostics are advisory only: the fetcher's returned value
does not depend on the warning threshold, a slow marker-free 200 response
still returns successfully (with the warning emitted alongside), and the
line-count check only emits a warning while the parse outcome is computed
from whatever lines are present. -/
theorem warnings_are_nonfatal :
    (∀ (r : Response) (w₁ w₂ : Nat),
        (request_hiscores_check r w₁).2 = (request_hiscores_check r w₂).2) ∧
    (∀ (r : Response) (w : Nat), r.elapsedMicros > w * 1000000 →
        containsSub HTML_MARKER r.text = false → r.status_code = 200 →
        request_hiscores_check r w = ([Warning.slowResponse], .ok r)) ∧
    (∀ (sc ac scc acc : List Str) (text : Str),
        (sanitize_hiscores_statsWith sc ac scc acc text).2 =
          parseStats sc ac scc acc (hiscoresLines text) ∧
        ((sanitize_hiscores_statsWith sc ac scc acc text).1 = [] ↔
          (hiscoresLines text).length = sc.length + ac.length)) := by
  refine ⟨?_, ?_, ?_⟩
  · intro r w₁ w₂
    by_cases h1 : containsSub HTML_MARKER r.text = true <;>
      by_cases h2 : r.status_code = 200 <;>
        simp [request_hiscores_check, h1, h2]
  · intro r w hslow hm hs
    simp [request_hiscores_check, hm, hs, hslow]
  · intro sc ac scc acc text
    constructor
    · rfl
    · simp only [sanitize_hiscores_statsWith, sanitizeWarns]
      by_cases h : (hiscoresLines text).length = sc.length + ac.length <;> simp [h]

theorem warnings_are_nonfatal_witness :
    request_hiscores_check respSlow 10 = ([Warning.slowResponse], .ok respSlow) :=
  warnings_are_nonfatal.2.1 respSlow 10 (by decide) (by decide) rfl

/-- C2: a payload whose trimmed text splits into exactly catalog-many
lines, each line a comma list of integers of its schema's width, parses
successfully into the catalogs zipped with the per-line field mappings,
with the keys of each side exactly the catalog labels in order. -/
theorem wellformed_payload_roundtrip (sc ac scc acc : List Str) (text : Str)
    (ls : List Str)
    (hsplit : hiscoresLines text = ls)
    (hlen : ls.length = sc.length + ac.length)
    (hskills : ∀ l ∈ ls.take sc.length, GoodLine scc l)
    (hacts : ∀ l ∈ ls.drop sc.length, GoodLine acc l) :
    (sanitize_hiscores_statsWith sc ac scc acc text).2 =
        .ok ⟨sc.zip ((ls.take sc.length).map (entryOf scc)),
             ac.zip ((ls.drop sc.length).map (entryOf acc))⟩ ∧
      (sc.zip ((ls.take sc.length).map (entryOf scc))).map Prod.fst = sc ∧
      (ac.zip ((ls.drop sc.length).map (entryOf acc))).map Prod.fst = ac := by
  have htakelen : (ls.take sc.length).length = sc.length := by
    rw [List.length_take]
    omega
  have hdroplen : (ls.drop sc.length).length = ac.length := by
    rw [List.length_drop]
    omega
  have hskillzip : parseZip (fun l => _parse_hiscores_response_line l scc) sc
      (ls.take sc.length) = .ok (sc.zip ((ls.take sc.length).map (entryOf scc))) :=
    parseZip_ok_eq _ (entryOf scc) sc (ls.take sc.length) htakelen.symm
      (fun l hl => parseLine_ok scc l (hskills l hl))
  have hactzip : parseZip (fun l => _parse_hiscores_response_line l acc) ac
      (ls.drop sc.length) = .ok (ac.zip ((ls.drop sc.length).map (entryOf acc))) :=
    parseZip_ok_eq _ (entryOf acc) ac (ls.drop sc.length) hdroplen.symm
      (fun l hl => parseLine_ok acc l (hacts l hl))
  refine ⟨?_, ?_, ?_⟩
  · show parseStats sc ac scc acc (hiscoresLines text) = _
    rw [hsplit]
    simp only [parseStats, hskillzip, hactzip]
  · exact List.map_fst_zip sc _ (by simp only [List.length_map, htakelen]; omega)
  · exact List.map_fst_zip ac _ (by simp only [List.length_map, hdroplen]; omega)

theorem wellformed_payload_roundtrip_witness :
    (sanitize_hiscores_stats GOOD_PAYLOAD).2 =
        .ok ⟨HISCORES_RESPONSE_SKILLS.zip
              (((hiscoresLines GOOD_PAYLOAD).take HISCORES_RESPONSE_SKILLS.length).map
                (entryOf HISCORES_RESPONSE_SKILL_COLS)),
             HISCORES_RESPONSE_ACTIVITIES.zip
              (((hiscoresLines GOOD_PAYLOAD).drop HISCORES_RESPONSE_SKILLS.length).map
                (entryOf HISCORE_RESPONSE_ACTIVITY_COLS))⟩ ∧
      (HISCORES_RESPONSE_SKILLS.zip
          (((hiscoresLines GOOD_PAYLOAD).take HISCORES_RESPONSE_SKILLS.length).map
            (entryOf HISCORES_RESPONSE_SKILL_COLS))).map Prod.fst =
        HISCORES_RESPONSE_SKILLS ∧
      (HISCORES_RESPONSE_ACTIVITIES.zip
          (((hiscoresLines GOOD_PAYLOAD).drop HISCORES_RESPONSE_SKILLS.length).map
            (entryOf HISCORE_RESPONSE_ACTIVITY_COLS))).map Prod.fst =
        HISCORES_RESPONSE_ACTIVITIES :=
  wellformed_payload_roundtrip HISCORES_RESPONSE_SKILLS HISCORES_RESPONSE_ACTIVITIES
    HISCORES_RESPONSE_SKILL_COLS HISCORE_RESPONSE_ACTIVITY_COLS GOOD_PAYLOAD
    (hiscoresLines GOOD_PAYLOAD) rfl (by decide) (by decide) (by decide)

/-- C10: a payload with surplus lines beyond the two catalogs, whose first
catalog-many lines are well formed, parses successfully to exactly the
parse of those first lines: the zip with the label catalogs discards the
surplus lines unparsed, so they cannot cause a failure however malformed
they are. -/
theorem surplus_lines_discarded (sc ac scc acc : List Str) (text : Str) (ls : List Str)
    (hsplit : hiscoresLines text = ls)
    (hlen : sc.length + ac.length < ls.length)
    (hskills : ∀ l ∈ ls.take sc.length, GoodLine scc l)
    (hacts : ∀ l ∈ (ls.drop sc.length).take ac.length, GoodLine acc l) :
    (sanitize_hiscores_statsWith sc ac scc acc text).2 =
      .ok ⟨sc.zip ((ls.take sc.length).map (entryOf scc)),
           ac.zip (((ls.drop sc.length).take ac.length).map (entryOf acc))⟩ := by
  have htakelen : (ls.take sc.length).length = sc.length := by
    rw [List.length_take]
    omega
  have hdtlen : ((ls.drop sc.length).take ac.length).length = ac.length := by
    rw [List.length_take, List.length_drop]
    omega
  have hskillzip : parseZip (fun l => _parse_hiscores_response_line l scc) sc
      (ls.take sc.length) = .ok (sc.zip ((ls.take sc.length).map (entryOf scc))) :=
    parseZip_ok_eq _ (entryOf scc) sc (ls.take sc.length) htakelen.symm
      (fun l hl => parseLine_ok scc l (hskills l hl))
  have hactzip : parseZip (fun l => _parse_hiscores_response_line l acc) ac
      (ls.drop sc.length) =
      .ok (ac.zip (((ls.drop sc.length).take ac.length).map (entryOf acc))) := by
    rw [← parseZip_take (fun l => _parse_hiscores_response_line l acc) ac (ls.drop sc.length)]
    exact parseZip_ok_eq _ (entryOf acc) ac ((ls.drop sc.length).take ac.length)
      hdtlen.symm (fun l hl => parseLine_ok acc l (hacts l hl))
  show parseStats sc ac scc acc (hiscoresLines text) = _
  rw [hsplit]
  simp only [parseStats, hskillzip, hactzip]

/-- A five-line well-formed payload followed by two surplus junk lines. -/
def SURPLUS_PAYLOAD : Str :=
  "1,2,3\n4,5,6\n7,8,9\n10,11\n12,13\ngarbage\n,,".toList

theorem surplus_lines_discarded_witness :
    (sanitize_hiscores_stats SURPLUS_PAYLOAD).2 =
      .ok ⟨HISCORES_RESPONSE_SKILLS.zip
            (((hiscoresLines SURPLUS_PAYLOAD).take HISCORES_RESPONSE_SKILLS.length).map
              (entryOf HISCORES_RESPONSE_SKILL_COLS)),
           HISCORES_RESPONSE_ACTIVITIES.zip
            ((((hiscoresLines SURPLUS_PAYLOAD).drop
                HISCORES_RESPONSE_SKILLS.length).take
                HISCORES_RESPONSE_ACTIVITIES.length).map
              (entryOf HISCORE_RESPONSE_ACTIVITY_COLS))⟩ :=
  surplus_lines_discarded HISCORES_RESPONSE_SKILLS HISCORES_RESPONSE_ACTIVITIES
    HISCORES_RESPONSE_SKILL_COLS HISCORE_RESPONSE_ACTIVITY_COLS SURPLUS_PAYLOAD
    (hiscoresLines SURPLUS_PAYLOAD) rfl (by decide) (by decide) (by decide)

/-- C1 counterexample: a payload of a single valid skill line, fewer lines
than the catalogs require, is accepted by sanitize_hiscores_stats and
returns a truncated structure whose skills mapping misses catalog labels
and whose activities mapping is empty. -/
theorem short_payload_partial_success :
    (hiscoresLines "1,2,3".toList).length <
        HISCORES_RESPONSE_SKILLS.length + HISCORES_RESPONSE_ACTIVITIES.length ∧
      (sanitize_hiscores_stats "1,2,3".toList).2 =
        .ok ⟨[("Overall".toList,
                [("rank".toList, (1 : Int)), ("level".toList, 2),
                 ("experience".toList, 3)])], []⟩ ∧
      "Attack".toList ∈ HISCORES_RESPONSE_SKILLS ∧
      "Attack".toList ∉
        ([("Overall".toList,
            [("rank".toList, (1 : Int)), ("level".toList, 2),
             ("experience".toList, 3)])] : List (Str × Entry)).map Prod.fst ∧
      ∀ a ∈ HISCORES_RESPONSE_ACTIVITIES, a ∉ ([] : List (Str × Entry)).map Prod.fst := by
  decide

/-- C1 (amended): every successful parse returns skills keys that are the
longest available prefix of the skill catalog and activity keys the
corresponding prefix of the activity catalog; with exactly catalog-many
lines the keys are exactly the catalogs, but a payload with fewer lines can
succeed with a truncated structure. -/
theorem success_keys_are_catalog_prefixes (sc ac scc acc : List Str) (text : Str)
    (sd ad : List (Str × Entry))
    (hok : (sanitize_hiscores_statsWith sc ac scc acc text).2 = .ok ⟨sd, ad⟩) :
    sd.map Prod.fst = sc.take (hiscoresLines text).length ∧
      ad.map Prod.fst = ac.take ((hiscoresLines text).length - sc.length) ∧
      ((hiscoresLines text).length = sc.length + ac.length →
        sd.map Prod.fst = sc ∧ ad.map Prod.fst = ac) := by
  have take_min : ∀ (xs : List Str) (n : Nat), xs.take (min xs.length n) = xs.take n := by
    intro xs n
    rcases le_total xs.length n with h | h
    · rw [min_eq_left h, List.take_length, List.take_of_length_le h]
    · rw [min_eq_right h]
  have h2 : parseStats sc ac scc acc (hiscoresLines text) = .ok ⟨sd, ad⟩ := hok
  simp only [parseStats] at h2
  cases hsz : parseZip (fun l => _parse_hiscores_response_line l scc) sc
      ((hiscoresLines text).take sc.length) with
  | error e => rw [hsz] at h2; cases h2
  | ok sd' =>
    rw [hsz] at h2
    cases haz : parseZip (fun l => _parse_hiscores_response_line l acc) ac
        ((hiscoresLines text).drop sc.length) with
    | error e => rw [haz] at h2; cases h2
    | ok ad' =>
      rw [haz] at h2
      simp only [Except.ok.injEq, SanitizeResult.mk.injEq] at h2
      obtain ⟨hsd, had⟩ := h2
      have hkeys1 : sd.map Prod.fst = sc.take (hiscoresLines text).length := by
        rw [← hsd]
        have := parseZip_keys _ sc _ sd' hsz
        rwa [List.length_take, take_min] at this
      have hkeys2 : ad.map Prod.fst = ac.take ((hiscoresLines text).length - sc.length) := by
        rw [← had]
        have := parseZip_keys _ ac _ ad' haz
        rwa [List.length_drop] at this
      refine ⟨hkeys1, hkeys2, ?_⟩
      intro hfull
      constructor
      · rw [hkeys1, List.take_of_length_le (by omega)]
      · rw [hkeys2, List.take_of_length_le (by omega)]

theorem success_keys_are_catalog_prefixes_witness :
    ([("Overall".toList,
        [("rank".toList, (1 : Int)), ("level".toList, 2),
         ("experience".toList, 3)])] : List (Str × Entry)).map Prod.fst =
        HISCORES_RESPONSE_SKILLS.take (hiscoresLines "1,2,3".toList).length ∧
      ([] : List (Str × Entry)).map Prod.fst =
        HISCORES_RESPONSE_ACTIVITIES.take
          ((hiscoresLines "1,2,3".toList).length - HISCORES_RESPONSE_SKILLS.length) ∧
      ((hiscoresLines "1,2,3".toList).length =
          HISCORES_RESPONSE_SKILLS.length + HISCORES_RESPONSE_ACTIVITIES.length →
        ([("Overall".toList,
            [("rank".toList, (1 : Int)), ("level".toList, 2),
             ("experience".toList, 3)])] : List (Str × Entry)).map Prod.fst =
            HISCORES_RESPONSE_SKILLS ∧
          ([] : List (Str × Entry)).map Prod.fst = HISCORES_RESPONSE_ACTIVITIES) :=
  success_keys_are_catalog_prefixes HISCORES_RESPONSE_SKILLS HISCORES_RESPONSE_ACTIVITIES
    HISCORES_RESPONSE_SKILL_COLS HISCORE_RESPONSE_ACTIVITY_COLS "1,2,3".toList
    [("Overall".toList,
       [("rank".toList, (1 : Int)), ("level".toList, 2), ("experience".toList, 3)])]
    [] (by decide)

/-- A payload whose first skill line has a non-numeric field and whose
second skill line has too few fields. -/
def CEX5 : Str := "1,2,x\n1,2\n3,4,5\n1,2\n3,4".toList

/-- C5 counterexample: CEX5 has a skill line among the first catalog-many
lines whose comma split is narrower than the skill schema, yet parsing
fails with the unwrapped integer-parse error from the earlier line, not
with the malformed-skill schema-mismatch error the claim requires. -/
theorem schema_mismatch_error_preempted :
    "1,2".toList ∈ (hiscoresLines CEX5).take HISCORES_RESPONSE_SKILLS.length ∧
      (splitChar ',' "1,2".toList).length ≠ HISCORES_RESPONSE_SKILL_COLS.length ∧
      (sanitize_hiscores_stats CEX5).2 = .error (.intParse "x".toList) ∧
      (sanitize_hiscores_stats CEX5).2 ≠ .error .malformedSkill := by
  decide

/-- C5 (amended): when a line of wrong comma width sits among the first
catalog-many lines and every line before it is well formed, parsing fails
with the wrapped malformed-skill error; and symmetrically, when the skill
lines are all well formed and a wrong-width line sits among the activity
lines with every earlier activity line well formed, parsing fails with the
wrapped malformed-activity error — never a truncated or padded success. -/
theorem first_schema_mismatch_wrapped :
    (∀ (sc ac scc acc : List Str) (text : Str) (pre : List Str) (bad : Str)
        (rest : List Str),
        hiscoresLines text = pre ++ bad :: rest →
        pre.length < sc.length →
        (∀ l ∈ pre, GoodLine scc l) →
        (splitChar ',' bad).length ≠ scc.length →
        (sanitize_hiscores_statsWith sc ac scc acc text).2 = .error .malformedSkill) ∧
    (∀ (sc ac scc acc : List Str) (text : Str) (pre : List Str) (bad : Str)
        (rest : List Str),
        (∀ l ∈ (hiscoresLines text).take sc.length, GoodLine scc l) →
        (hiscoresLines text).drop sc.length = pre ++ bad :: rest →
        pre.length < ac.length →
        (∀ l ∈ pre, GoodLine acc l) →
        (splitChar ',' bad).length ≠ acc.length →
        (sanitize_hiscores_statsWith sc ac scc acc text).2 = .error .malformedActivity) := by
  constructor
  · intro sc ac scc acc text pre bad rest hsplit hlen hpre hbad
    have herr : parseZip (fun l => _parse_hiscores_response_line l scc) sc
        ((hiscoresLines text).take sc.length) = .error (.invalidSchema scc bad) := by
      rw [parseZip_take, hsplit]
      exact parseZip_err_at _ _ pre sc bad rest hlen
        (fun l hl => ⟨entryOf scc l, parseLine_ok scc l (hpre l hl)⟩)
        (parseLine_count_err scc bad hbad)
    show parseStats sc ac scc acc (hiscoresLines text) = _
    simp only [parseStats, herr, wrapSchemaErr]
  · intro sc ac scc acc text pre bad rest hskills hsplit hlen hpre hbad
    have hNle : sc.length ≤ (hiscoresLines text).length := by
      by_contra hgt
      push_neg at hgt
      have hnil : (hiscoresLines text).drop sc.length = [] :=
        List.drop_eq_nil_of_le (le_of_lt hgt)
      rw [hsplit] at hnil
      simp at hnil
    have htakelen : ((hiscoresLines text).take sc.length).length = sc.length := by
      rw [List.length_take]
      omega
    have hskillzip : parseZip (fun l => _parse_hiscores_response_line l scc) sc
        ((hiscoresLines text).take sc.length) =
        .ok (sc.zip (((hiscoresLines text).take sc.length).map (entryOf scc))) :=
      parseZip_ok_eq _ (entryOf scc) sc ((hiscoresLines text).take sc.length)
        htakelen.symm (fun l hl => parseLine_ok scc l (hskills l hl))
    have hacterr : parseZip (fun l => _parse_hiscores_response_line l acc) ac
        ((hiscoresLines text).drop sc.length) = .error (.invalidSchema acc bad) := by
      rw [hsplit]
      exact parseZip_err_at _ _ pre ac bad rest hlen
        (fun l hl => ⟨entryOf acc l, parseLine_ok acc l (hpre l hl)⟩)
        (parseLine_count_err acc bad hbad)
    show parseStats sc ac scc acc (hiscoresLines text) = _
    simp only [parseStats, hskillzip, hacterr, wrapSchemaErr]

theorem first_schema_mismatch_wrapped_witness :
    (sanitize_hiscores_stats "1,2\nx".toList).2 = .error .malformedSkill :=
  first_schema_mismatch_wrapped.1 HISCORES_RESPONSE_SKILLS HISCORES_RESPONSE_ACTIVITIES
    HISCORES_RESPONSE_SKILL_COLS HISCORE_RESPONSE_ACTIVITY_COLS "1,2\nx".toList
    [] "1,2".toList ["x".toList] (by decide) (by decide) (by decide) (by decide)

theorem extract_player_len_err (q : Str) (hlen : (splitChar '=' q).length ≠ 2) :
    extract_player q = .error (.invalidQuery q) := by
  unfold extract_player
  cases hs : splitChar '=' q with
  | nil => rfl
  | cons x xs =>
    cases xs with
    | nil => rfl
    | cons y ys =>
      cases ys with
      | nil => rw [hs] at hlen; simp at hlen
      | cons z zs => rfl

/-- C6: given a response whose body parses, the enrichment step extracts
the player from the echoed query string: player=Zezima yields player
Zezima, player=Player+One yields player Player One with the plus decoded
to a space, while an empty (equivalently missing, since urlparse returns
an empty query component then) query string or one carrying two
key=value parameters fails with the invalid-query classification and no
enriched structure is returned. -/
theorem enricher_player_extraction (sc ac scc acc : List Str) (r : Response)
    (st : SanitizeResult) (now : Str)
    (hok : (sanitize_hiscores_statsWith sc ac scc acc r.text).2 = .ok st) :
    (r.query = "player=Zezima".toList →
        (process_hiscores_responseWith sc ac scc acc r now).2 =
          .ok ⟨st.skills, st.activities, "Zezima".toList, now⟩) ∧
    (r.query = "player=Player+One".toList →
        (process_hiscores_responseWith sc ac scc acc r now).2 =
          .ok ⟨st.skills, st.activities, "Player One".toList, now⟩) ∧
    (r.query = [] →
        (process_hiscores_responseWith sc ac scc acc r now).2 =
          .error (.invalidQuery r.query)) ∧
    (∀ (k1 v1 k2 v2 : Str),
        r.query = k1 ++ '=' :: (v1 ++ '&' :: (k2 ++ '=' :: v2)) →
        (process_hiscores_responseWith sc ac scc acc r now).2 =
          .error (.invalidQuery r.query)) := by
  have hproc : (process_hiscores_responseWith sc ac scc acc r now).2 =
      (match extract_player r.query with
       | .error e => .error e
       | .ok player => .ok ⟨st.skills, st.activities, player, now⟩) := by
    have hdef : (process_hiscores_responseWith sc ac scc acc r now).2 =
        (match (sanitize_hiscores_statsWith sc ac scc acc r.text).2 with
         | .error e => .error e
         | .ok result =>
           match extract_player r.query with
           | .error e => .error e
           | .ok player => .ok ⟨result.skills, result.activities, player, now⟩) := rfl
    rw [hdef, hok]
  refine ⟨?_, ?_, ?_, ?_⟩
  · intro hq
    rw [hproc, hq]
    rfl
  · intro hq
    rw [hproc, hq]
    rfl
  · intro hq
    rw [hproc, hq]
    rfl
  · intro k1 v1 k2 v2 hq
    rw [hproc]
    have hsp : 3 ≤ (splitChar '=' r.query).length := by
      rw [hq]
      have hassoc : v1 ++ '&' :: (k2 ++ '=' :: v2) = (v1 ++ '&' :: k2) ++ '=' :: v2 := by
        simp
      rw [hassoc, splitChar_append_sep, splitChar_append_sep]
      have l1 := length_splitChar_pos '=' k1
      have l2 := length_splitChar_pos '=' (v1 ++ '&' :: k2)
      have l3 := length_splitChar_pos '=' v2
      simp only [List.length_append]
      omega
    rw [extract_player_len_err r.query (by omega)]

theorem enricher_player_extraction_witness :
    (process_hiscores_response respZezima nowStr).2 =
      .ok ⟨goodStats.skills, goodStats.activities, "Zezima".toList, nowStr⟩ :=
  (enricher_player_extraction HISCORES_RESPONSE_SKILLS HISCORES_RESPONSE_ACTIVITIES
      HISCORES_RESPONSE_SKILL_COLS HISCORE_RESPONSE_ACTIVITY_COLS respZezima goodStats
      nowStr (by decide)).1 rfl

end RsApi
